import Mathlib

/-!
Verification development for the matrix-fx-bot repository (src/main.rs,
src/types.rs): a shallow embedding of the message-dispatch pipeline, link
extraction and filtering, media selection, the embed-resolution and
attachment-fetch flow, the autojoin handler, and the session-supervision
loop, with theorems settling the specification claims.

Third-party collaborators (the linkify crate's link finder, the url crate's
parser, reqwest's HTTP client, the matrix SDK's sync transport) are embedded
as explicit parameters or simplified executable models; everything taken
from the repository's own code follows the source line by line.
-/

namespace FxBot

/-- The fixed allow-list of hostnames, from `TARGETS` in src/main.rs. -/
def TARGETS : List String :=
  [ "cunnyx.com"
  , "fixupx.com"
  , "fixvx.com"
  , "fxtwitter.com"
  , "girlcockx.com"
  , "hitlerx.com"
  , "nitter.net"
  , "nitter.poast.org"
  , "twitter.com"
  , "twittpr.com"
  , "vxtwitter.com"
  , "x.com"
  , "xcancel.com"
  , "xfixup.com"
  ]

/-- Character-list test that `s` begins with `pat`; structural so that it
reduces inside the kernel. -/
def charListBeginsWith : List Char → List Char → Bool
  | _, [] => true
  | [], _ :: _ => false
  | a :: s, b :: p => a == b && charListBeginsWith s p

/-- Fuel-driven splitter over character lists (fuel at least the input
length makes it total on the input), modelling `str::split` on a nonempty
separator: `acc` holds the current segment reversed. -/
def splitOnFuel (pat : List Char) : Nat → List Char → List Char → List (List Char)
  | _, [], acc => [acc.reverse]
  | 0, _ :: _, acc => [acc.reverse]
  | fuel + 1, c :: rest, acc =>
    if charListBeginsWith (c :: rest) pat then
      acc.reverse :: splitOnFuel pat fuel ((c :: rest).drop pat.length) []
    else
      splitOnFuel pat fuel rest (c :: acc)

/-- `String.splitOn` / Rust `str::split`, kernel-reducible. -/
def splitOnL (s pat : String) : List String :=
  if pat.data.isEmpty then [s]
  else (splitOnFuel pat.data s.data.length s.data []).map fun l => ⟨l⟩

/-- Fuel-driven replacement over character lists, modelling Rust
`str::replace`: every non-overlapping occurrence of `pat`, left to right. -/
def replaceFuel (pat rep : List Char) : Nat → List Char → List Char
  | _, [] => []
  | 0, s => s
  | fuel + 1, c :: rest =>
    if charListBeginsWith (c :: rest) pat then
      rep ++ replaceFuel pat rep fuel ((c :: rest).drop pat.length)
    else
      c :: replaceFuel pat rep fuel rest

/-- Rust `str::replace`, kernel-reducible. -/
def replaceL (s pat rep : String) : String :=
  if pat.data.isEmpty then s
  else ⟨replaceFuel pat.data rep.data s.data.length s.data⟩

/-- Lowercasing (`to_ascii_lowercase` / the url crate's host
normalization), kernel-reducible. -/
def toLowerL (s : String) : String :=
  ⟨s.data.map Char.toLower⟩

/-- Rust `str::trim`, kernel-reducible. -/
def trimL (s : String) : String :=
  ⟨((s.data.dropWhile Char.isWhitespace).reverse.dropWhile Char.isWhitespace).reverse⟩

/-- Rust `str::ends_with`, kernel-reducible. -/
def endsWithL (s pat : String) : Bool :=
  charListBeginsWith s.data.reverse pat.data.reverse

/-- Model of the url crate's parsed URL: the fields the repository reads
(`scheme()`, `has_host()`/`host_str()`, `path()`). -/
structure UrlM where
  scheme : String
  host : Option String
  path : String
deriving DecidableEq, Repr

/-- Simplified executable model of `Url::from_str` for `scheme://host/path`
inputs: scheme before "://", host up to the first `/`, `?` or `#`
(lowercased, as the url crate normalizes it), path up to `?` or `#`
(defaulting to "/" as for special schemes). Inputs outside this shape
parse to `none`. -/
def parseUrl (s : String) : Option UrlM :=
  match splitOnL s "://" with
  | [scheme, rest] =>
    if scheme.data.isEmpty then none
    else
      let hostPart : String := ⟨rest.data.takeWhile fun c => c != '/' && c != '?' && c != '#'⟩
      if hostPart.data.isEmpty then none
      else
        let tail : String := ⟨rest.data.drop hostPart.data.length⟩
        let path : String :=
          if charListBeginsWith tail.data ['/'] then ⟨tail.data.takeWhile fun c => c != '?' && c != '#'⟩
          else "/"
        some { scheme := toLowerL scheme, host := some (toLowerL hostPart), path := path }
  | _ => none

/-- Substring test, modelling Rust's `str::contains` for a nonempty needle. -/
def strContains (s pat : String) : Bool :=
  (splitOnL s pat).length != 1

/-- Model of Rust's `Vec::dedup` (inner loop): walk the list keeping the
most recently kept element, dropping each element equal to it. -/
def dedupConsecAux [DecidableEq α] (a : α) : List α → List α
  | [] => []
  | b :: t => if a = b then dedupConsecAux a t else b :: dedupConsecAux b t

/-- Model of Rust's `Vec::dedup`: removes only *consecutive* repeated
elements, keeping the first of each run. -/
def dedupConsec [DecidableEq α] : List α → List α
  | [] => []
  | a :: t => a :: dedupConsecAux a t

/-- The filter chain of `on_room_message` (src/main.rs lines 372-374):
scheme must be "https" and a host must be present; the lowercased host must
be in `TARGETS`; the path must contain "/status/". -/
def filterLinks (ls : List UrlM) : List UrlM :=
  ((ls.filter fun l => l.scheme == "https" && l.host.isSome).filter
    fun l => TARGETS.contains (toLowerL (l.host.getD ""))).filter
    fun l => strContains l.path "/status/"

/-- Link extraction from a message body (src/main.rs lines 369-375): the
third-party linkify link finder is the parameter `lf`; its candidates are
parsed with `Url::from_str` (failures dropped by `filter_map`) and run
through the filter chain. `Vec::dedup` is applied separately afterwards,
as in the source. -/
def extractLinks (lf : String → List String) (body : String) : List UrlM :=
  filterLinks ((lf body).filterMap parseUrl)

/-- The message type of an inbound room message: a text body or anything
else (`MessageType::Text` vs. the rest). -/
inductive MsgType where
  | text (body : String)
  | other
deriving DecidableEq, Repr

/-- The facts about an inbound room-message event that `on_room_message`
inspects before acting: room state, sender, encryption state, whether the
event is an edit (`RelationType::Replacement`), and the message type. -/
structure MsgEvent where
  roomJoined : Bool
  senderIsMe : Bool
  roomEncrypted : Bool
  isEdit : Bool
  msgtype : MsgType
deriving DecidableEq, Repr

/-- What the dispatcher decides to do with one inbound message. -/
inductive DispatchAction where
  | ignore
  | replyStatus
  | setShutdown
  | process (links : List UrlM)
deriving DecidableEq, Repr

/-- The dispatch logic of `on_room_message` (src/main.rs lines 328-398) up
to the per-link loop: the early-return gates in source order, then the
`!status` command (trimmed body), then the `!die` command (raw body), then
link extraction; an empty link list returns, otherwise the deduplicated
list is processed. -/
def dispatch (lf : String → List String) (e : MsgEvent) : DispatchAction :=
  if e.roomJoined = false then .ignore
  else if e.senderIsMe then .ignore
  else if e.roomEncrypted = false then .ignore
  else if e.isEdit then .ignore
  else
    match e.msgtype with
    | .other => .ignore
    | .text body =>
      if trimL body == "!status" then .replyStatus
      else if body == "!die" then .setShutdown
      else
        let links := extractLinks lf body
        if links.isEmpty then .ignore
        else .process (dedupConsec links)

/-- `Author` from src/types.rs. -/
structure Author where
  avatar_url : UrlM
  id : String
  name : String
  screen_name : String
deriving DecidableEq, Repr

/-- `VideoFormats` from src/types.rs. -/
structure VideoFormats where
  bitrate : Option Int
  codec : Option String
  container : String
  url : UrlM
deriving DecidableEq, Repr

/-- `Videos` from src/types.rs (one video of a post). The `duration` field
is read by `post_tweet` in src/main.rs (as an f64 number of seconds,
modelled as a rational). -/
structure Videos where
  format : String
  formats : List VideoFormats
  height : Int
  id : String
  thumbnail_url : UrlM
  type : String
  url : UrlM
  width : Int
  duration : Rat
deriving DecidableEq, Repr

/-- `Photos` from src/types.rs (one photo of a post). -/
structure Photos where
  id : String
  type : String
  url : UrlM
  width : Int
  height : Int
deriving DecidableEq, Repr

/-- `MosaicFormats` from src/types.rs. -/
structure MosaicFormats where
  jpeg : UrlM
  webp : UrlM
deriving DecidableEq, Repr

/-- `Mosaic` from src/types.rs. -/
structure Mosaic where
  formats : MosaicFormats
  type : String
deriving DecidableEq, Repr

/-- `Media` from src/types.rs: each of the three fields is optional, and a
present `photos`/`videos` field is a list that the JSON schema does not
force to be non-empty. -/
structure Media where
  mosaic : Option Mosaic
  photos : Option (List Photos)
  videos : Option (List Videos)
deriving DecidableEq, Repr

/-- `Tweet` from src/types.rs. -/
structure Tweet where
  author : Author
  created_at : String
  created_timestamp : Int
  id : String
  likes : Int
  media : Option Media
  replies : Int
  retweets : Int
  text : String
  views : Int
deriving DecidableEq, Repr

/-- `FxApiResponse` from src/types.rs. -/
structure FxApiResponse where
  code : Int
  message : String
  tweet : Option Tweet
deriving DecidableEq, Repr

/-- `UploadInfo` from src/main.rs (the MIME type kept as its string form). -/
structure UploadInfo where
  url : UrlM
  width : Option Int
  height : Option Int
  duration : Option Rat
  content_type : String
  filename : String
  thumbnail_url : Option UrlM
deriving DecidableEq, Repr

/-- Last segment of a URL path: `url.path_segments().unwrap().last().unwrap()`. -/
def lastSegment (p : String) : String :=
  (splitOnL p "/").getLastD ""

/-- The video branch of `post_tweet` (src/main.rs lines 455-483): take the
first video; for a "gif" video rewrite ".mp4" to ".gif" in the path, take
the final path segment as the filename, then point the URL at
gif.fxtwitter.com with MIME image/gif and no geometry or thumbnail; for any
other video keep its URL, carry width/height/duration, the MIME type parsed
from its `format`, and its thumbnail URL. -/
def videoUpload (video : Videos) : UploadInfo :=
  let url := if video.type == "gif"
    then { video.url with path := replaceL video.url.path ".mp4" ".gif" }
    else video.url
  let filename := lastSegment url.path
  if video.type == "gif" then
    { url := { url with host := some "gif.fxtwitter.com" }
    , width := none, height := none, duration := none
    , content_type := "image/gif", filename := filename, thumbnail_url := none }
  else
    { url := url
    , width := some video.width, height := some video.height
    , duration := some video.duration
    , content_type := video.format, filename := filename
    , thumbnail_url := some video.thumbnail_url }

/-- The mosaic branch of `post_tweet` (src/main.rs lines 484-493): the WEBP
rendition of the mosaic, MIME image/webp, filename synthesized from the
tweet id. -/
def mosaicUpload (tweetId : String) (mosaic : Mosaic) : UploadInfo :=
  { url := mosaic.formats.webp
  , width := none, height := none, duration := none
  , content_type := "image/webp"
  , filename := tweetId ++ "_mosaic.webp"
  , thumbnail_url := none }

/-- The photo branch of `post_tweet` (src/main.rs lines 494-510): take the
first photo; filename is the last path segment; MIME is image/jpeg for a
".jpg" filename and otherwise "image/" followed by the extension after the
last dot. -/
def photoUpload (photo : Photos) : UploadInfo :=
  let filename := lastSegment photo.url.path
  let ct := if endsWithL filename ".jpg" then "image/jpeg"
    else "image/" ++ (splitOnL filename ".").getLastD ""
  { url := photo.url
  , width := some photo.width, height := some photo.height
  , duration := none
  , content_type := ct, filename := filename, thumbnail_url := none }

/-- Media selection of `post_tweet` (src/main.rs lines 447-511), its
`if let` chain in source order: videos first (indexing `videos[0]`), else
the mosaic, else photos (indexing `photos[0]`), else nothing. The source
indexes `videos[0]`/`photos[0]` without an emptiness check; the `none`
result of this guarded embedding is the out-of-bounds panic of that
indexing. -/
def selectMedia (tweetId : String) (media : Media) : Option (List UploadInfo) :=
  match media.videos with
  | some videos =>
    match videos.head? with
    | none => none
    | some video => some [videoUpload video]
  | none =>
    match media.mosaic with
    | some mosaic => some [mosaicUpload tweetId mosaic]
    | none =>
      match media.photos with
      | some photos =>
        match photos.head? with
        | none => none
        | some photo => some [photoUpload photo]
      | none => some []

/-- Outcome of one HTTP GET: a transport-level failure (connect/timeout/body
read), or a response with a status code and a body of type `α`. -/
inductive HttpOutcome (α : Type) where
  | transportErr (msg : String)
  | resp (status : Nat) (body : α)
deriving DecidableEq, Repr

/-- Outcome of deserializing a response body as `FxApiResponse`. -/
inductive JsonOutcome where
  | malformed
  | parsed (r : FxApiResponse)
deriving DecidableEq, Repr

/-- Model of reqwest's `Response::error_for_status`: fails exactly on
client-error and server-error statuses (400-599). -/
def errorForStatus (status : Nat) : Bool :=
  decide (400 ≤ status ∧ status ≤ 599)

/-- The external world as `post_tweet` sees it: the embed-API GET (URL to
status plus JSON-decode outcome — note the source never calls
`error_for_status` on this response, so its status code is ignored), the
room text send, the asset GET (body abstracted to its byte count), and the
attachment send. -/
structure Env where
  embed : UrlM → HttpOutcome JsonOutcome
  sendText : String → Bool
  fetch : UrlM → HttpOutcome Nat
  sendAttachment : Bool

/-- `link.set_host(Some("api.fxtwitter.com"))` in `post_tweet`. -/
def apiLink (l : UrlM) : UrlM :=
  { l with host := some "api.fxtwitter.com" }

/-- Model of jiff's calendar formatting of the creation timestamp,
abstracted to the decimal form of the Unix timestamp. -/
def strftimeFT (ts : Int) : String :=
  toString ts

/-- The text summary built in `post_tweet` (src/main.rs lines 433-443):
author name, handle, body text, counters and creation time. -/
def tweetText (t : Tweet) : String :=
  t.author.name ++ " (@" ++ t.author.screen_name ++ ")\n" ++ t.text ++ "\n💬"
    ++ toString t.replies ++ " ♻️" ++ toString t.retweets ++ " ❤️"
    ++ toString t.likes ++ " 👁️" ++ toString t.views ++ "\n"
    ++ strftimeFT t.created_timestamp

/-- Observable side effects of processing one message's links. -/
inductive Event where
  | embedGet (u : UrlM)
  | sentText (s : String)
  | fetchGet (u : UrlM)
  | sentAttachment (filename : String) (ct : String)
deriving DecidableEq, Repr

/-- One iteration of the upload loop of `post_tweet` (src/main.rs lines
513-579): GET the main asset (transport failure or bad status is a hard
failure), then, if a thumbnail URL is present, GET it the same way, then
send the attachment; every failure aborts with an error after the events
already performed. -/
def uploadOne (env : Env) (u : UploadInfo) : List Event × Except String Unit :=
  match env.fetch u.url with
  | .transportErr _ => ([.fetchGet u.url], .error "Failed to GET main file")
  | .resp st _ =>
    if errorForStatus st then ([.fetchGet u.url], .error "Bad status")
    else
      match u.thumbnail_url with
      | some tu =>
        match env.fetch tu with
        | .transportErr _ => ([.fetchGet u.url, .fetchGet tu], .error "Failed to GET thumbnail")
        | .resp st2 _ =>
          if errorForStatus st2 then ([.fetchGet u.url, .fetchGet tu], .error "Bad status")
          else if env.sendAttachment then
            ([.fetchGet u.url, .fetchGet tu, .sentAttachment u.filename u.content_type], .ok ())
          else ([.fetchGet u.url, .fetchGet tu], .error "Failed to send attachment")
      | none =>
        if env.sendAttachment then
          ([.fetchGet u.url, .sentAttachment u.filename u.content_type], .ok ())
        else ([.fetchGet u.url], .error "Failed to send attachment")

/-- The `for upload_info in to_upload` loop of `post_tweet`: the `?`
operator propagates the first failure, later items are not attempted. -/
def uploadLoop (env : Env) (acc : List Event) : List UploadInfo → List Event × Except String Unit
  | [] => (acc, .ok ())
  | u :: rest =>
    match uploadOne env u with
    | (evs, .ok _) => uploadLoop env (acc ++ evs) rest
    | (evs, .error e) => (acc ++ evs, .error e)

/-- `post_tweet` (src/main.rs lines 419-582) over the environment: rewrite
the host to api.fxtwitter.com, GET and decode (transport error, JSON-decode
failure and an absent `tweet` field each abort with the source's error
context), send the text summary (its failure aborts), then select and
upload media; a post without media succeeds after the text message.
`selectMedia` returning `none` is the out-of-bounds panic of `videos[0]` /
`photos[0]`, modelled as an error outcome. -/
def postTweet (env : Env) (link : UrlM) : List Event × Except String Unit :=
  let api := apiLink link
  match env.embed api with
  | .transportErr _ => ([.embedGet api], .error "Failed to fetch api.fxtwitter.com results")
  | .resp _ .malformed => ([.embedGet api], .error "failed to parse as JSON into FxApiResponse")
  | .resp _ (.parsed r) =>
    match r.tweet with
    | none => ([.embedGet api], .error "response.tweet was None")
    | some tweet =>
      let msg := tweetText tweet
      if env.sendText msg = false then
        ([.embedGet api], .error "Failed to send tweet info")
      else
        match tweet.media with
        | none => ([.embedGet api, .sentText msg], .ok ())
        | some media =>
          match selectMedia tweet.id media with
          | none => ([.embedGet api, .sentText msg], .error "index out of bounds")
          | some toUpload => uploadLoop env [.embedGet api, .sentText msg] toUpload

/-- The `for link in links` loop of `on_room_message` (src/main.rs lines
393-398): each link is processed in order; an `Err` from `post_tweet` is
only printed, the loop always continues with the next link. -/
def processLinks (env : Env) : List UrlM → List Event
  | [] => []
  | l :: ls => (postTweet env l).1 ++ processLinks env ls

/-- The embed-API GET requests among a list of events, in order. -/
def embedGets (evs : List Event) : List UrlM :=
  evs.filterMap fun e => match e with | .embedGet u => some u | _ => none

/-- The text messages sent among a list of events, in order. -/
def sentTexts (evs : List Event) : List String :=
  evs.filterMap fun e => match e with | .sentText s => some s | _ => none

/-- A per-link resolution failure for `link` under `env`: embed-API
transport error, undecodable JSON, or a decoded response whose `tweet`
field is absent. (A non-2xx embed status is not separately inspected by
the source — it surfaces as one of these, since the body of an error
response either fails to decode or decodes with `tweet` absent.) -/
def resolutionFails (env : Env) (l : UrlM) : Prop :=
  match env.embed (apiLink l) with
  | .transportErr _ => True
  | .resp _ .malformed => True
  | .resp _ (.parsed r) => r.tweet = none

/-- The asset GET for `v` under `env` fails: transport error, or a status
rejected by `error_for_status`. -/
def fetchFails (env : Env) (v : UrlM) : Prop :=
  match env.fetch v with
  | .transportErr _ => True
  | .resp st _ => errorForStatus st = true

/-- The embed API resolves `link` under `env` to a response carrying the
tweet `t`. -/
def resolvesTo (env : Env) (link : UrlM) (t : Tweet) : Prop :=
  ∃ st r, env.embed (apiLink link) = .resp st (.parsed r) ∧ r.tweet = some t

/-- The gate of `on_stripped_state_member` (src/main.rs lines 293-305)
deciding whether the autojoin retry task is spawned for an invite: the
event's state key must be the running account's user id, the room must have
a name, and then the source's condition `name != "fx test" || true` returns
early when it holds. -/
def autojoinSpawns (stateKey myId : String) (roomName : Option String) : Bool :=
  if stateKey ≠ myId then false
  else
    match roomName with
    | none => false
    | some name => if name ≠ "fx test" ∨ True then false else true

/-- Result of the autojoin retry loop: success or abandonment, each with
the list of pre-retry sleep durations in seconds, or fuel exhaustion of
the embedding. -/
inductive JoinResult where
  | joined (sleeps : List Nat)
  | abandoned (sleeps : List Nat)
  | fuelOut
deriving DecidableEq, Repr

/-- The retry loop in the task spawned by `on_stripped_state_member`
(src/main.rs lines 306-325): `attempt i` is the outcome of the i-th
`room.join()` call; on failure sleep `delay` seconds, double `delay`
(starting from 2), and stop once the doubled value exceeds 3600. -/
def joinLoop (attempt : Nat → Bool) : Nat → Nat → Nat → List Nat → JoinResult
  | 0, _, _, _ => .fuelOut
  | fuel + 1, i, delay, sleeps =>
    if attempt i then .joined sleeps
    else
      let sleeps := sleeps ++ [delay]
      let delay := delay * 2
      if delay > 3600 then .abandoned sleeps
      else joinLoop attempt fuel (i + 1) delay sleeps

/-- The retry loop entered with its source initial state (`delay = 2`);
fuel 12 covers every possible run, since the delay doubles from 2 and the
loop stops once it exceeds 3600. -/
def joinRetry (attempt : Nat → Bool) : JoinResult :=
  joinLoop attempt 12 0 2 []

/-- The session-level outcomes `run_session_once` (src/main.rs lines
240-290) depends on: each fallible setup step (`FxSessionData::load`,
client build, `restore_session`, the initial `sync_once`, and
`load_or_fetch_max_upload_size`), the shutdown flag as observed by the
sync callback at each iteration, and a possible sync-transport error at
each iteration. -/
structure SessionEnv where
  load : Except String Unit
  build : Except String Unit
  restore : Except String Unit
  syncOnce : Except String Unit
  maxUpload : Except String Unit
  flag : Nat → Bool
  syncErr : Nat → Option String

/-- `sync_with_callback`: each iteration performs one sync request (an
error there makes the whole call return that error) and then runs the
callback, which breaks the loop — returning success — exactly when the
shutdown flag is observed set. `none` means the loop is still running
after `fuel` iterations. -/
def syncWithCallback (flag : Nat → Bool) (syncErr : Nat → Option String) :
    Nat → Nat → Option (Except String Unit)
  | 0, _ => none
  | fuel + 1, i =>
    match syncErr i with
    | some e => some (.error e)
    | none => if flag i then some (.ok ()) else syncWithCallback flag syncErr fuel (i + 1)

/-- `run_session_once` (src/main.rs lines 240-290): every setup step's
error propagates via `?`; otherwise the result is that of
`sync_with_callback`, and the function returns `Ok(())` exactly when that
loop breaks on the shutdown flag. -/
def runSessionOnce (fuel : Nat) (env : SessionEnv) : Option (Except String Unit) :=
  match env.load with
  | .error e => some (.error e)
  | .ok _ =>
    match env.build with
    | .error e => some (.error e)
    | .ok _ =>
      match env.restore with
      | .error e => some (.error e)
      | .ok _ =>
        match env.syncOnce with
        | .error e => some (.error e)
        | .ok _ =>
          match env.maxUpload with
          | .error e => some (.error e)
          | .ok _ => syncWithCallback env.flag env.syncErr fuel 0

/-- Result of the supervisor loop in `run`: termination after the n-th
session attempt with the recorded inter-restart sleeps, or still spinning
when the embedding's fuel runs out. -/
inductive RunOutcome where
  | done (n : Nat) (sleeps : List Nat)
  | spinning
deriving DecidableEq, Repr

/-- The restart loop of `run` (src/main.rs lines 232-237):
`while let Err(e) = run_session_once().await` — on error, sleep 10 seconds
and try a fresh session; on the first `Ok` the loop (and `run`) returns
success. -/
def runLoop (sessions : Nat → Except String Unit) : Nat → Nat → List Nat → RunOutcome
  | 0, _, _ => .spinning
  | fuel + 1, i, sleeps =>
    match sessions i with
    | .ok _ => .done i sleeps
    | .error _ => runLoop sessions fuel (i + 1) (sleeps ++ [10])

/-- Session environment for the claim C1 witness: every setup step
succeeds and the shutdown flag is already observable at the first sync
callback. -/
def envC1 : SessionEnv :=
  { load := .ok (), build := .ok (), restore := .ok (), syncOnce := .ok ()
  , maxUpload := .ok (), flag := fun _ => true, syncErr := fun _ => none }

/-- Session environment for the claim C8 witness: the first session fails
to load, every later session succeeds with the flag observed at once. -/
def envC8 (i : Nat) : SessionEnv :=
  if i = 0 then
    { load := .error "load failed", build := .ok (), restore := .ok ()
    , syncOnce := .ok (), maxUpload := .ok ()
    , flag := fun _ => false, syncErr := fun _ => none }
  else
    { load := .ok (), build := .ok (), restore := .ok (), syncOnce := .ok ()
    , maxUpload := .ok (), flag := fun _ => true, syncErr := fun _ => none }

/-- Session outcomes for the claim C8 witness. -/
def outsC8 (i : Nat) : Except String Unit :=
  if i = 0 then .error "load failed" else .ok ()

/-- Concrete video for the claim C5 witness. -/
def videoC5 : Videos :=
  { format := "video/mp4", formats := [], height := 720, id := "v1"
  , thumbnail_url := ⟨"https", some "pbs.twimg.com", "/thumb.jpg"⟩
  , type := "video", url := ⟨"https", some "video.twimg.com", "/vid.mp4"⟩
  , width := 1280, duration := 3 }

/-- Concrete photo for the claim C5 witness. -/
def photoC5 : Photos :=
  { id := "p1", type := "photo"
  , url := ⟨"https", some "pbs.twimg.com", "/photo.jpg"⟩
  , width := 800, height := 600 }

/-- Concrete media with both a video and a photo for the claim C5
witness. -/
def mediaC5 : Media :=
  { mosaic := none, photos := some [photoC5], videos := some [videoC5] }

/-- Concrete video for the claim C10 witness. -/
def videoC10 : Videos :=
  { format := "video/mp4", formats := [], height := 480, id := "v2"
  , thumbnail_url := ⟨"https", some "pbs.twimg.com", "/t.jpg"⟩
  , type := "video", url := ⟨"https", some "video.twimg.com", "/v.mp4"⟩
  , width := 640, duration := 5 }

/-- Environment for the claim C7 witness: the embed API is unreachable. -/
def envC7 : Env :=
  { embed := fun _ => .transportErr "connect timeout"
  , sendText := fun _ => true
  , fetch := fun _ => .resp 200 1024
  , sendAttachment := true }

/-- Concrete photo for the claim C6 witness. -/
def photoC6 : Photos :=
  { id := "p6", type := "photo"
  , url := ⟨"https", some "pbs.twimg.com", "/img.png"⟩
  , width := 10, height := 10 }

/-- Concrete media for the claim C6 witness. -/
def mediaC6 : Media :=
  { mosaic := none, photos := some [photoC6], videos := none }

/-- Concrete tweet for the claim C6 witness. -/
def tweetC6 : Tweet :=
  { author := { avatar_url := ⟨"https", some "pbs.twimg.com", "/a.jpg"⟩
              , id := "42", name := "Ada", screen_name := "ada" }
  , created_at := "now", created_timestamp := 0, id := "99", likes := 1
  , media := some mediaC6, replies := 0, retweets := 0, text := "hi", views := 2 }

/-- Environment for the claim C6 witness: the embed API resolves, the text
send succeeds, and every asset fetch answers HTTP 500. -/
def envC6 : Env :=
  { embed := fun _ => .resp 200 (.parsed { code := 200, message := "ok", tweet := some tweetC6 })
  , sendText := fun _ => true
  , fetch := fun _ => .resp 500 0
  , sendAttachment := true }

/-- Concrete candidate link for the claim C6 witness. -/
def linkC6 : UrlM := ⟨"https", some "x.com", "/a/status/9"⟩

theorem dedupConsecAux_sublist [DecidableEq α] (a : α) (l : List α) :
    (dedupConsecAux a l).Sublist l := by
  induction l generalizing a with
  | nil => simp [dedupConsecAux]
  | cons b t ih =>
    simp only [dedupConsecAux]
    by_cases h : a = b
    · rw [if_pos h]; exact (ih a).cons b
    · rw [if_neg h]; exact (ih b).cons₂ b

theorem dedupConsec_sublist [DecidableEq α] (l : List α) :
    (dedupConsec l).Sublist l := by
  cases l with
  | nil => simp [dedupConsec]
  | cons a t => exact (dedupConsecAux_sublist a t).cons₂ a

theorem dedupConsecAux_chain [DecidableEq α] (a : α) (l : List α) :
    List.Chain' (fun x y => x ≠ y) (a :: dedupConsecAux a l) := by
  induction l generalizing a with
  | nil => simp [dedupConsecAux]
  | cons b t ih =>
    simp only [dedupConsecAux]
    by_cases h : a = b
    · rw [if_pos h]; exact ih a
    · rw [if_neg h, List.chain'_cons]
      exact ⟨h, ih b⟩

theorem dedupConsec_chain [DecidableEq α] (l : List α) :
    List.Chain' (fun x y => x ≠ y) (dedupConsec l) := by
  cases l with
  | nil => simp [dedupConsec]
  | cons a t => exact dedupConsecAux_chain a t

theorem dedupConsec_head [DecidableEq α] (l : List α) :
    (dedupConsec l).head? = l.head? := by
  cases l <;> rfl

theorem mem_filterLinks {u : UrlM} {ls : List UrlM} :
    u ∈ filterLinks ls ↔ u ∈ ls
      ∧ u.scheme = "https" ∧ u.host.isSome = true
      ∧ toLowerL (u.host.getD "") ∈ TARGETS
      ∧ strContains u.path "/status/" = true := by
  simp only [filterLinks, List.mem_filter, Bool.and_eq_true, beq_iff_eq]
  constructor
  · rintro ⟨⟨⟨hmem, h1, h2⟩, h3⟩, h4⟩
    exact ⟨hmem, h1, h2, List.elem_iff.mp h3, h4⟩
  · rintro ⟨hmem, h1, h2, h3, h4⟩
    exact ⟨⟨⟨hmem, h1, h2⟩, List.elem_iff.mpr h3⟩, h4⟩

theorem contains_true_mem (l : List String) (a : String)
    (h : l.contains a = true) : a ∈ l :=
  List.elem_iff.mp h

/-- Claim C3 (amended): for every message body the link pipeline removes
only *consecutive* duplicate normalized URLs (Rust `Vec::dedup`): the
processed sequence never contains the same URL twice in adjacent
positions, is an order-preserving subsequence of the filtered extraction
result, and keeps the first occurrence at the front; a URL repeated
non-adjacently survives more than once. -/
theorem claim_C3 : ∀ (lf : String → List String) (body : String),
    List.Chain' (fun a b => a ≠ b) (dedupConsec (extractLinks lf body))
    ∧ (dedupConsec (extractLinks lf body)).Sublist (extractLinks lf body)
    ∧ (dedupConsec (extractLinks lf body)).head? = (extractLinks lf body).head? := by
  intro lf body
  exact ⟨dedupConsec_chain _, dedupConsec_sublist _, dedupConsec_head _⟩

/-- Counterexample to claim C3 as stated: a message body holding the same
post URL twice with a different URL in between yields that URL twice in
the processed sequence — `Vec::dedup` removes only consecutive
duplicates, so the deduplicated links are not duplicate-free. -/
theorem claim_C3_cex :
    ¬ (dedupConsec (extractLinks (fun b => splitOnL b " ")
        "https://x.com/a/status/1 https://x.com/b/status/2 https://x.com/a/status/1")).Nodup := by
  decide

/-- Claim C4: every URL in the processed link sequence of a message body
parses from one of the body's candidates, has scheme exactly "https", an
explicit host, a lowercased host in the fixed allow-list `TARGETS`, and a
path containing "/status/"; and when every parsed candidate fails one of
the filters, the result is empty (non-matching candidates are dropped
without error). -/
theorem claim_C4 : ∀ (lf : String → List String) (body : String) (u : UrlM),
    (u ∈ dedupConsec (extractLinks lf body) →
      (∃ s, s ∈ lf body ∧ parseUrl s = some u)
      ∧ u.scheme = "https" ∧ u.host.isSome = true
      ∧ toLowerL (u.host.getD "") ∈ TARGETS
      ∧ strContains u.path "/status/" = true)
    ∧ ((∀ l, l ∈ (lf body).filterMap parseUrl →
          ¬ (l.scheme = "https" ∧ l.host.isSome = true
            ∧ toLowerL (l.host.getD "") ∈ TARGETS
            ∧ strContains l.path "/status/" = true)) →
        dedupConsec (extractLinks lf body) = []) := by
  intro lf body u
  constructor
  · intro h
    have hmem := (dedupConsec_sublist _).subset h
    simp only [extractLinks] at hmem
    rcases mem_filterLinks.mp hmem with ⟨hin, h1, h2, h3, h4⟩
    rcases List.mem_filterMap.mp hin with ⟨s, hs, hps⟩
    exact ⟨⟨s, hs, hps⟩, h1, h2, h3, h4⟩
  · intro hall
    have hnil : extractLinks lf body = [] := by
      simp only [extractLinks]
      rw [List.eq_nil_iff_forall_not_mem]
      intro l hl
      rcases mem_filterLinks.mp hl with ⟨hin, h1, h2, h3, h4⟩
      exact hall l hin ⟨h1, h2, h3, h4⟩
    rw [hnil]
    rfl

/-- Witness for claim C4 at a concrete message body with one matching
link. -/
theorem claim_C4_witness :
    (∃ s, s ∈ ["https://x.com/a/status/1"] ∧
        parseUrl s = some ⟨"https", some "x.com", "/a/status/1"⟩)
    ∧ UrlM.scheme ⟨"https", some "x.com", "/a/status/1"⟩ = "https"
    ∧ (UrlM.host ⟨"https", some "x.com", "/a/status/1"⟩).isSome = true
    ∧ toLowerL ((UrlM.host ⟨"https", some "x.com", "/a/status/1"⟩).getD "") ∈ TARGETS
    ∧ strContains (UrlM.path ⟨"https", some "x.com", "/a/status/1"⟩) "/status/" = true :=
  (claim_C4 (fun b => [b]) "https://x.com/a/status/1"
    ⟨"https", some "x.com", "/a/status/1"⟩).1 (by decide)

/-- Claim C9: a message arriving from a room whose encryption state is not
encrypted is ignored by the dispatcher — no admin command handling, no
link extraction, nothing published. -/
theorem claim_C9 : ∀ (lf : String → List String) (e : MsgEvent),
    e.roomEncrypted = false → dispatch lf e = .ignore := by
  intro lf e h
  rcases e with ⟨rj, sm, re, ed, mt⟩
  simp only at h
  subst h
  cases rj <;> cases sm <;> simp [dispatch]

/-- Witness for claim C9: the shutdown command in an unencrypted joined
room is ignored. -/
theorem claim_C9_witness :
    dispatch (fun _ => [])
      { roomJoined := true, senderIsMe := false, roomEncrypted := false,
        isEdit := false, msgtype := .text "!die" } = .ignore :=
  claim_C9 _ _ rfl

/-- Counterexample to claim C1 as stated: a message whose *trimmed* body is
"!die" but whose raw body carries a leading space does not set the
shutdown flag — the source compares the `!die` command against the
untrimmed body (`text.body == "!die"`), unlike `!status` which is
trimmed; the message falls through to link scanning and is ignored. -/
theorem claim_C1_cex :
    trimL " !die" = "!die"
    ∧ dispatch (fun b => [b])
        { roomJoined := true, senderIsMe := false, roomEncrypted := true,
          isEdit := false, msgtype := .text " !die" } ≠ .setShutdown := by
  constructor
  · decide
  · decide

/-- Claim C1 (amended): for every inbound text message passing the
dispatch gates (joined room, not authored by the bot, encrypted room, not
an edit) whose *exact untrimmed* body is "!die", the dispatcher sets the
shutdown flag; and a session whose setup steps succeed and whose sync
loop observes the flag at its next check terminates cleanly —
`run_session_once` returns success, not an error. -/
theorem claim_C1 :
    (∀ (lf : String → List String) (e : MsgEvent) (body : String),
      e.roomJoined = true → e.senderIsMe = false → e.roomEncrypted = true →
      e.isEdit = false → e.msgtype = .text body → body = "!die" →
      dispatch lf e = .setShutdown)
    ∧ (∀ (env : SessionEnv) (fuel : Nat),
      env.load = .ok () → env.build = .ok () → env.restore = .ok () →
      env.syncOnce = .ok () → env.maxUpload = .ok () →
      env.syncErr 0 = none → env.flag 0 = true →
      runSessionOnce (fuel + 1) env = some (.ok ())) := by
  constructor
  · intro lf e body h1 h2 h3 h4 h5 h6
    rcases e with ⟨rj, sm, re, ed, mt⟩
    simp only at h1 h2 h3 h4 h5
    subst h1; subst h2; subst h3; subst h4; subst h5; subst h6
    rfl
  · intro env fuel h1 h2 h3 h4 h5 h6 h7
    simp only [runSessionOnce, h1, h2, h3, h4, h5, syncWithCallback, h6, h7]
    rfl
/-- Witness for claim C1 at a concrete event and session environment. -/
theorem claim_C1_witness :
    dispatch (fun _ => [])
      { roomJoined := true, senderIsMe := false, roomEncrypted := true,
        isEdit := false, msgtype := .text "!die" } = .setShutdown
    ∧ runSessionOnce 1 envC1 = some (.ok ()) :=
  ⟨claim_C1.1 (fun _ => []) _ "!die" rfl rfl rfl rfl rfl rfl,
   claim_C1.2 envC1 0 rfl rfl rfl rfl rfl rfl rfl⟩

/-- Counterexample to claim C2 as stated: even for an invite addressed to
the running account, in a room carrying the hardcoded test name, no
autojoin attempt sequence is started — the handler's condition
`name != "fx test" || true` is always true, so it returns for every
invite. -/
theorem claim_C2_cex :
    autojoinSpawns "@me:example.org" "@me:example.org" (some "fx test") = false := by
  decide

/-- Claim C2 (amended): the member-event handler never spawns the autojoin
attempt sequence (its guard is always-true, disabling autojoin for every
invite); the retry loop inside the guarded task would, if run, behave as
described: three failures then success sleep 2s/4s/8s and end Joined,
while indefinite failure sleeps 2,4,...,2048 seconds and stops
(Abandoned) once the doubled delay exceeds 3600 seconds. -/
theorem claim_C2 :
    (∀ (stateKey myId : String) (roomName : Option String),
      autojoinSpawns stateKey myId roomName = false)
    ∧ joinRetry (fun i => decide (3 ≤ i)) = .joined [2, 4, 8]
    ∧ joinRetry (fun _ => false)
        = .abandoned [2, 4, 8, 16, 32, 64, 128, 256, 512, 1024, 2048] := by
  refine ⟨?_, by decide, by decide⟩
  intro stateKey myId roomName
  by_cases h : stateKey ≠ myId
  · simp [autojoinSpawns, h]
  · cases roomName <;> simp [autojoinSpawns, h]

theorem syncWithCallback_ok_flag (flag : Nat → Bool) (syncErr : Nat → Option String) :
    ∀ (fuel i : Nat), syncWithCallback flag syncErr fuel i = some (.ok ()) →
      ∃ k, flag k = true := by
  intro fuel
  induction fuel with
  | zero => intro i h; simp [syncWithCallback] at h
  | succ f ih =>
    intro i h
    simp only [syncWithCallback] at h
    cases he : syncErr i with
    | some e => rw [he] at h; simp at h
    | none =>
      rw [he] at h
      by_cases hf : flag i = true
      · exact ⟨i, hf⟩
      · rw [if_neg (by simp [hf])] at h
        exact ih (i + 1) h

theorem runSessionOnce_ok_flag (fuel : Nat) (env : SessionEnv)
    (h : runSessionOnce fuel env = some (.ok ())) : ∃ k, env.flag k = true := by
  simp only [runSessionOnce] at h
  repeat' split at h
  all_goals first
    | exact syncWithCallback_ok_flag env.flag env.syncErr fuel 0 h
    | simp at h

theorem runLoop_done (outs : Nat → Except String Unit) :
    ∀ (fuel i n : Nat) (acc sleeps : List Nat),
      runLoop outs fuel i acc = .done n sleeps →
      i ≤ n ∧ sleeps = acc ++ List.replicate (n - i) 10
        ∧ (∀ m, i ≤ m → m < n → ∃ e, outs m = Except.error e)
        ∧ outs n = Except.ok () := by
  intro fuel
  induction fuel with
  | zero => intro i n acc sleeps h; simp [runLoop] at h
  | succ f ih =>
    intro i n acc sleeps h
    simp only [runLoop] at h
    cases ho : outs i with
    | ok u =>
      rw [ho] at h
      injection h with hn hs
      subst hn; subst hs
      cases u
      exact ⟨le_refl i, by simp, fun m h1 h2 => absurd (lt_of_le_of_lt h1 h2) (lt_irrefl i), ho⟩
    | error e =>
      rw [ho] at h
      rcases ih (i + 1) n (acc ++ [10]) sleeps h with ⟨hle, hs, herr, hok⟩
      refine ⟨le_trans (Nat.le_succ i) hle, ?_, ?_, hok⟩
      · rw [hs, List.append_assoc]
        congr 1
        have h1 : n - i = (n - (i + 1)) + 1 := by omega
        rw [h1, List.replicate_succ]
        rfl
      · intro m h1 h2
        rcases Nat.eq_or_lt_of_le h1 with h3 | h3
        · exact ⟨e, h3 ▸ ho⟩
        · exact herr m h3 h2

/-- Claim C8: when the restart loop of `run` terminates successfully after
its n-th session attempt, every earlier attempt ended in a session-fatal
error, a 10-second sleep separated consecutive attempts (n sleeps of 10s),
the final session returned success, and success can only arise from the
sync loop observing the shutdown flag set; and when every session attempt
fails, the loop never terminates — it keeps restarting for any amount of
fuel. -/
theorem claim_C8 :
    (∀ (envs : Nat → SessionEnv) (sfuel : Nat) (outs : Nat → Except String Unit)
        (fuel n : Nat) (sleeps : List Nat),
      (∀ i, runSessionOnce sfuel (envs i) = some (outs i)) →
      runLoop outs fuel 0 [] = .done n sleeps →
      sleeps = List.replicate n 10
      ∧ (∀ m, m < n → ∃ e, outs m = Except.error e)
      ∧ outs n = Except.ok ()
      ∧ ∃ k, (envs n).flag k = true)
    ∧ (∀ (outs : Nat → Except String Unit),
      (∀ i, ∃ e, outs i = Except.error e) →
      ∀ (fuel i : Nat) (acc : List Nat), runLoop outs fuel i acc = .spinning) := by
  constructor
  · intro envs sfuel outs fuel n sleeps hsess hloop
    rcases runLoop_done outs fuel 0 n [] sleeps hloop with ⟨_, hs, herr, hok⟩
    refine ⟨by simpa using hs, fun m hm => herr m (Nat.zero_le m) hm, hok, ?_⟩
    exact runSessionOnce_ok_flag sfuel (envs n) (by rw [hsess n, hok])
  · intro outs hall fuel
    induction fuel with
    | zero => intro i acc; rfl
    | succ f ih =>
      intro i acc
      rcases hall i with ⟨e, he⟩
      simp only [runLoop, he]
      exact ih (i + 1) (acc ++ [10])
/-- Witness for claim C8: one failed session followed by a successful one
gives exactly one 10-second sleep, and the flag was observed in the
successful session. -/
theorem claim_C8_witness :
    outsC8 1 = Except.ok ()
    ∧ (List.replicate 1 10 = [10] ∧ ∃ k, (envC8 1).flag k = true) := by
  have h := claim_C8.1 envC8 1 outsC8 2 1 [10]
    (fun i => by cases i <;> rfl) rfl
  exact ⟨h.2.2.1, rfl, h.2.2.2⟩

/-- Claim C5: media selection follows the strict first-match-wins priority
order of the source's `if let` chain: a post with videos selects the first
video (whatever its photos or mosaic fields hold — in particular a post
with both a video and photos yields the video); with no videos a mosaic
selects the composite's WEBP rendition under a filename synthesized from
the post id; with neither, photos select the first photo; with no media
fields, nothing is selected. -/
theorem claim_C5 : ∀ (tweetId : String) (media : Media),
    (∀ (v : Videos) (vs : List Videos), media.videos = some (v :: vs) →
      selectMedia tweetId media = some [videoUpload v])
    ∧ (∀ (m : Mosaic), media.videos = none → media.mosaic = some m →
      selectMedia tweetId media = some [mosaicUpload tweetId m]
      ∧ (mosaicUpload tweetId m).url = m.formats.webp
      ∧ (mosaicUpload tweetId m).content_type = "image/webp"
      ∧ (mosaicUpload tweetId m).filename = tweetId ++ "_mosaic.webp")
    ∧ (∀ (p : Photos) (ps : List Photos),
      media.videos = none → media.mosaic = none → media.photos = some (p :: ps) →
      selectMedia tweetId media = some [photoUpload p])
    ∧ (media.videos = none → media.mosaic = none → media.photos = none →
      selectMedia tweetId media = some []) := by
  intro tweetId media
  refine ⟨?_, ?_, ?_, ?_⟩
  · intro v vs h
    simp [selectMedia, h]
  · intro m h1 h2
    exact ⟨by simp [selectMedia, h1, h2], rfl, rfl, rfl⟩
  · intro p ps h1 h2 h3
    simp [selectMedia, h1, h2, h3]
  · intro h1 h2 h3
    simp [selectMedia, h1, h2, h3]
/-- Witness for claim C5: a post carrying both a video and a photo yields
the video. -/
theorem claim_C5_witness :
    selectMedia "123" mediaC5 = some [videoUpload videoC5] :=
  (claim_C5 "123" mediaC5).1 videoC5 [] rfl

/-- Claim C10: the source indexes `videos[0]` and `photos[0]` without an
emptiness check, so an embed response whose `videos` field (or, with no
videos and no mosaic, whose `photos` field) is present but an empty list
reaches the out-of-bounds branch of the guarded embedding; under the
precondition that every present videos/photos list is non-empty, the
branch is unreachable and selection always produces a result. -/
theorem claim_C10 : ∀ (tweetId : String),
    (∀ (m : Option Mosaic) (p : Option (List Photos)),
      selectMedia tweetId { mosaic := m, photos := p, videos := some [] } = none)
    ∧ selectMedia tweetId { mosaic := none, photos := some [], videos := none } = none
    ∧ (∀ (media : Media),
      (∀ vs, media.videos = some vs → vs ≠ []) →
      (∀ ps, media.photos = some ps → ps ≠ []) →
      (selectMedia tweetId media).isSome = true) := by
  intro tweetId
  refine ⟨fun m p => rfl, rfl, ?_⟩
  intro media hv hp
  rcases media with ⟨m, p, v⟩
  cases v with
  | some vs =>
    cases vs with
    | nil => exact absurd rfl (hv [] rfl)
    | cons a t => simp [selectMedia]
  | none =>
    cases m with
    | some _ => simp [selectMedia]
    | none =>
      cases p with
      | some ps =>
        cases ps with
        | nil => exact absurd rfl (hp [] rfl)
        | cons a t => simp [selectMedia]
      | none => simp [selectMedia]
/-- Witness for claim C10: under the non-emptiness precondition, selection
on a concrete media value produces a result. -/
theorem claim_C10_witness :
    (selectMedia "9" { mosaic := none, photos := none, videos := some [videoC10] }).isSome = true :=
  (claim_C10 "9").2.2 { mosaic := none, photos := none, videos := some [videoC10] }
    (fun vs h => by cases h; simp)
    (fun ps h => by cases h)

theorem embedGets_append (a b : List Event) :
    embedGets (a ++ b) = embedGets a ++ embedGets b := by
  simp [embedGets]

theorem embedGets_uploadOne (env : Env) (u : UploadInfo) :
    embedGets (uploadOne env u).1 = [] := by
  unfold uploadOne
  repeat' split
  all_goals simp [embedGets]

theorem embedGets_uploadLoop (env : Env) :
    ∀ (us : List UploadInfo) (acc : List Event),
      embedGets (uploadLoop env acc us).1 = embedGets acc := by
  intro us
  induction us with
  | nil => intro acc; rfl
  | cons u rest ih =>
    intro acc
    simp only [uploadLoop]
    cases hu : uploadOne env u with
    | mk evs r =>
      have hevs : embedGets evs = [] := by
        have := embedGets_uploadOne env u
        rw [hu] at this
        exact this
      cases r with
      | ok _ =>
        rw [ih (acc ++ evs), embedGets_append, hevs]
        simp
      | error e =>
        simp [embedGets_append, hevs]

theorem embedGets_postTweet (env : Env) (l : UrlM) :
    embedGets (postTweet env l).1 = [apiLink l] := by
  simp only [postTweet]
  cases he : env.embed (apiLink l) with
  | transportErr m => simp [embedGets]
  | resp st body =>
    cases body with
    | malformed => simp [embedGets]
    | parsed r =>
      cases ht : r.tweet with
      | none => simp [ht, embedGets]
      | some tweet =>
        by_cases hs : env.sendText (tweetText tweet) = false
        · simp [ht, hs, embedGets]
        · cases hm : tweet.media with
          | none => simp [ht, hs, hm, embedGets]
          | some media =>
            cases hsel : selectMedia tweet.id media with
            | none => simp [ht, hs, hm, hsel, embedGets]
            | some toUpload =>
              have hul := embedGets_uploadLoop env toUpload
                [Event.embedGet (apiLink l), Event.sentText (tweetText tweet)]
              simp [embedGets] at hul
              simp [ht, hs, hm, hsel, embedGets, hul]

theorem processLinks_append (env : Env) (xs ys : List UrlM) :
    processLinks env (xs ++ ys) = processLinks env xs ++ processLinks env ys := by
  induction xs with
  | nil => rfl
  | cons l ls ih => simp [processLinks, ih]

theorem processLinks_eq_flatten (env : Env) (links : List UrlM) :
    processLinks env links = (links.map fun l => (postTweet env l).1).flatten := by
  induction links with
  | nil => rfl
  | cons l ls ih => simp [processLinks, ih]

theorem resolutionFails_postTweet (env : Env) (l : UrlM)
    (h : resolutionFails env l) :
    (∃ e, (postTweet env l).2 = Except.error e)
    ∧ sentTexts (postTweet env l).1 = [] := by
  unfold resolutionFails at h
  simp only [postTweet]
  cases he : env.embed (apiLink l) with
  | transportErr m => exact ⟨⟨_, rfl⟩, by simp [sentTexts]⟩
  | resp st body =>
    cases body with
    | malformed => exact ⟨⟨_, rfl⟩, by simp [sentTexts]⟩
    | parsed r =>
      rw [he] at h
      have h2 : r.tweet = none := h
      constructor
      · refine ⟨"response.tweet was None", ?_⟩
        simp [h2]
      · simp [h2, sentTexts]

/-- Claim C7: for every message and environment, every link in the
processed list is resolved — one embed-API request each, in
first-occurrence order — regardless of other links' failures; the events
of the whole batch are the concatenation of each link's own events in
order (so replies are sent in link order and one link's failure cannot
abort its siblings); and each per-link resolution failure (transport
error, undecodable JSON, or a response whose tweet field is absent) makes
only that link's attempt return an error, with no text reply sent for
it. -/
theorem claim_C7 : ∀ (env : Env) (links : List UrlM),
    embedGets (processLinks env links) = links.map apiLink
    ∧ processLinks env links = (links.map fun l => (postTweet env l).1).flatten
    ∧ ∀ l, resolutionFails env l →
        (∃ e, (postTweet env l).2 = Except.error e)
        ∧ sentTexts (postTweet env l).1 = [] := by
  intro env links
  refine ⟨?_, processLinks_eq_flatten env links, fun l h => resolutionFails_postTweet env l h⟩
  induction links with
  | nil => rfl
  | cons l ls ih =>
    simp only [processLinks, embedGets_append, embedGets_postTweet, List.map_cons]
    rw [ih]
    rfl
/-- Witness for claim C7 at a concrete link whose resolution fails by
transport error: the attempt errors and no text reply is sent. -/
theorem claim_C7_witness :
    (∃ e, (postTweet envC7 ⟨"https", some "x.com", "/a/status/1"⟩).2 = Except.error e)
    ∧ sentTexts (postTweet envC7 ⟨"https", some "x.com", "/a/status/1"⟩).1 = [] :=
  (claim_C7 envC7 [⟨"https", some "x.com", "/a/status/1"⟩]).2.2
    ⟨"https", some "x.com", "/a/status/1"⟩ trivial

theorem C6aux (env : Env) (link : UrlM) (m : String) (ws : List UrlM) (e : String)
    (hpt : postTweet env link
      = ([Event.embedGet (apiLink link), Event.sentText m] ++ ws.map Event.fetchGet,
        Except.error e))
    (hnd : ws.Nodup) :
    (∃ e2, (postTweet env link).2 = Except.error e2)
    ∧ Event.sentText m ∈ (postTweet env link).1
    ∧ (∀ f c, Event.sentAttachment f c ∉ (postTweet env link).1)
    ∧ (∀ v, ((postTweet env link).1.count (Event.fetchGet v)) ≤ 1)
    ∧ ∀ pre post, processLinks env (pre ++ link :: post)
        = processLinks env pre ++ (postTweet env link).1 ++ processLinks env post := by
  refine ⟨⟨e, by rw [hpt]⟩, by rw [hpt]; simp, ?_, ?_, ?_⟩
  · intro f c
    rw [hpt]
    simp
  · intro v
    rw [hpt]
    show List.count (Event.fetchGet v)
      ([Event.embedGet (apiLink link), Event.sentText m] ++ ws.map Event.fetchGet) ≤ 1
    have h1 : List.count (Event.fetchGet v)
        [Event.embedGet (apiLink link), Event.sentText m] = 0 := by
      simp
    have h2 : List.count (Event.fetchGet v) (ws.map Event.fetchGet) = ws.count v :=
      List.count_map_of_injective ws Event.fetchGet (fun a b h => by injection h) v
    rw [List.count_append, h1, h2]
    simpa using List.nodup_iff_count_le_one.mp hnd v
  · intro pre post
    rw [processLinks_append]
    simp [processLinks]

/-- Claim C6: once a link has resolved and its text summary has been sent,
a failing attachment fetch (transport error or a status rejected by
`error_for_status`, on the main asset or on its thumbnail) makes only that
link's attempt return an error — the sent text event stands, no
attachment is sent, each asset URL is fetched at most once (no retry
inside the fetch component), and the surrounding message loop still
processes every other link of the message. -/
theorem claim_C6 : ∀ (env : Env) (link : UrlM) (t : Tweet) (media : Media)
    (u : UploadInfo) (rest : List UploadInfo),
    resolvesTo env link t →
    env.sendText (tweetText t) = true →
    t.media = some media →
    selectMedia t.id media = some (u :: rest) →
    (fetchFails env u.url ∨
      (¬ fetchFails env u.url ∧ ∃ tu, u.thumbnail_url = some tu ∧ fetchFails env tu)) →
    (∃ e2, (postTweet env link).2 = Except.error e2)
    ∧ Event.sentText (tweetText t) ∈ (postTweet env link).1
    ∧ (∀ f c, Event.sentAttachment f c ∉ (postTweet env link).1)
    ∧ (∀ v, ((postTweet env link).1.count (Event.fetchGet v)) ≤ 1)
    ∧ ∀ pre post, processLinks env (pre ++ link :: post)
        = processLinks env pre ++ (postTweet env link).1 ++ processLinks env post := by
  intro env link t media u rest hres hsend hmedia hsel hfail
  obtain ⟨st, r, hembed, htweet⟩ := hres
  have hpt : postTweet env link
      = uploadLoop env [Event.embedGet (apiLink link), Event.sentText (tweetText t)]
          (u :: rest) := by
    simp [postTweet, hembed, htweet, hsend, hmedia, hsel]
  rcases hfail with hmain | ⟨hok, tu, htu, hthumb⟩
  · unfold fetchFails at hmain
    cases hfu : env.fetch u.url with
    | transportErr msg =>
      have huo : uploadOne env u = ([Event.fetchGet u.url], Except.error "Failed to GET main file") := by
        simp [uploadOne, hfu]
      exact C6aux env link (tweetText t) [u.url] "Failed to GET main file"
        (by rw [hpt]; simp [uploadLoop, huo]) (List.nodup_singleton u.url)
    | resp s2 n =>
      rw [hfu] at hmain
      have hbad : errorForStatus s2 = true := hmain
      have huo : uploadOne env u = ([Event.fetchGet u.url], Except.error "Bad status") := by
        simp [uploadOne, hfu, hbad]
      exact C6aux env link (tweetText t) [u.url] "Bad status"
        (by rw [hpt]; simp [uploadLoop, huo]) (List.nodup_singleton u.url)
  · have hne : u.url ≠ tu := fun h => hok (h ▸ hthumb)
    have hnd : List.Nodup [u.url, tu] := by simp [hne]
    unfold fetchFails at hok hthumb
    cases hfu : env.fetch u.url with
    | transportErr msg => rw [hfu] at hok; exact absurd trivial hok
    | resp s2 n =>
      rw [hfu] at hok
      have hgood : errorForStatus s2 = false := by
        by_cases h : errorForStatus s2 = true
        · exact absurd h hok
        · simpa using h
      cases hft : env.fetch tu with
      | transportErr msg =>
        have huo : uploadOne env u
            = ([Event.fetchGet u.url, Event.fetchGet tu], Except.error "Failed to GET thumbnail") := by
          simp [uploadOne, hfu, hgood, htu, hft]
        exact C6aux env link (tweetText t) [u.url, tu] "Failed to GET thumbnail"
          (by rw [hpt]; simp [uploadLoop, huo]) hnd
      | resp s3 n3 =>
        rw [hft] at hthumb
        have hbad3 : errorForStatus s3 = true := hthumb
        have huo : uploadOne env u
            = ([Event.fetchGet u.url, Event.fetchGet tu], Except.error "Bad status") := by
          simp [uploadOne, hfu, hgood, htu, hft, hbad3]
        exact C6aux env link (tweetText t) [u.url, tu] "Bad status"
          (by rw [hpt]; simp [uploadLoop, huo]) hnd
/-- Witness for claim C6: with an HTTP-500 asset fetch, the link's attempt
errors while the sent text stands, nothing is attached, no fetch is
retried, and sibling links are unaffected. -/
theorem claim_C6_witness :
    (∃ e2, (postTweet envC6 linkC6).2 = Except.error e2)
    ∧ Event.sentText (tweetText tweetC6) ∈ (postTweet envC6 linkC6).1
    ∧ (∀ f c, Event.sentAttachment f c ∉ (postTweet envC6 linkC6).1)
    ∧ (∀ v, ((postTweet envC6 linkC6).1.count (Event.fetchGet v)) ≤ 1)
    ∧ ∀ pre post, processLinks envC6 (pre ++ linkC6 :: post)
        = processLinks envC6 pre ++ (postTweet envC6 linkC6).1 ++ processLinks envC6 post :=
  claim_C6 envC6 linkC6 tweetC6 mediaC6 (photoUpload photoC6) []
    ⟨200, { code := 200, message := "ok", tweet := some tweetC6 }, rfl, rfl⟩
    rfl rfl rfl (Or.inl (show errorForStatus 500 = true by decide))

end FxBot
